import Mathlib

/-!
Verification of the DocumentMCP server (`src/mcp/mcp_server.py`).

The Python module keeps a global dict `docs : dict[str, str]` seeded with six
entries and registers five handlers against the MCP runtime:

* `read_document(doc_id)`  — raises when `doc_id not in docs`, else `docs.get(doc_id)`;
* `edit_document(doc_id, new_content)` — raises when absent, else `docs[doc_id] = new_content`;
* `list_docs()` — `list(docs.keys())`;
* `get_doc_content(doc_id)` — same body as `read_document`;
* `format_document(doc_id)` — a single `UserMessage` with an f-string template.

We embed the dict as an insertion-ordered association list with unique keys and
translate each handler into a pure function that threads the registry state
explicitly: a handler returns the (possibly updated) registry paired with an
`Except` result, so that a raised `ValueError` ("not found") corresponds to
`Except.error` with the state unchanged, exactly as in Python where the raise
happens before any mutation.
-/

/-- The single error kind of the module: the `ValueError` raised by
`read_document`, `edit_document` and `get_doc_content` when `doc_id` is
absent, carrying the offending id. -/
inductive McpError where
  | notFound (doc_id : String)
deriving DecidableEq, Repr

/-- The registry type: an insertion-ordered mapping from document id to
content, embedding the Python `dict[str, str]`. -/
abbrev Docs := List (String × String)

/-- Python `doc_id in docs`: membership test on the keys. -/
def dictContains : Docs → String → Bool
  | [], _ => false
  | (k, _) :: t, key => if key = k then true else dictContains t key

/-- Python `docs.get(doc_id)`: the value stored at the first (and, with unique
keys, only) occurrence of the key, or `none`. -/
def dictGet : Docs → String → Option String
  | [], _ => none
  | (k, v) :: t, key => if key = k then some v else dictGet t key

/-- Python `docs[doc_id] = new_content`: replace the value in place when the
key is present (keeping its position), append otherwise. -/
def dictSet : Docs → String → String → Docs
  | [], key, v => [(key, v)]
  | (k, w) :: t, key, v =>
    if key = k then (key, v) :: t else (k, w) :: dictSet t key v

/-- Python `list(docs.keys())`: the keys in insertion order. -/
def dictKeys : Docs → List String
  | [] => []
  | (k, _) :: t => k :: dictKeys t

/-- The literal six-entry table the module seeds `docs` with at import time. -/
def docs : Docs :=
  [ ("deposition.md",
     "This deposition covers the testimony of Angela Smith, P.E."),
    ("report.pdf",
     "The report details the state of a 20m condenser tower."),
    ("financials.docx",
     "These financials outline the project\x27s budget and expenditures."),
    ("outlook.pdf",
     "This document presents the projected future performance of the system."),
    ("plan.md",
     "The plan outlines the steps for the project\x27s implementation."),
    ("spec.txt",
     "These specifications define the technical requirements for the equipment.") ]

/-- Tool `read_doc`. `if doc_id not in docs: raise ValueError(...)`, then
`return docs.get(doc_id)`. The registry is never modified, which the explicit
state threading makes visible in the returned first component. -/
def read_document (st : Docs) (doc_id : String) : Docs × Except McpError (Option String) :=
  if dictContains st doc_id = false then
    (st, Except.error (McpError.notFound doc_id))
  else
    (st, Except.ok (dictGet st doc_id))

/-- Tool `edit_doc`. `if doc_id not in docs: raise ValueError(...)`, then
`docs[doc_id] = new_content`; the Python function returns `None`, hence the
`Unit` result. On the raising branch the registry is returned unchanged. -/
def edit_document (st : Docs) (doc_id : String) (new_content : String) :
    Docs × Except McpError Unit :=
  if dictContains st doc_id = false then
    (st, Except.error (McpError.notFound doc_id))
  else
    (dictSet st doc_id new_content, Except.ok ())

/-- Resource `docs://documents`: `return list(docs.keys())`; total, no error path. -/
def list_docs (st : Docs) : List String :=
  dictKeys st

/-- Resource `docs://documents/{doc_id}`: the body is character-for-character
the body of `read_document`. -/
def get_doc_content (st : Docs) (doc_id : String) : Docs × Except McpError (Option String) :=
  if dictContains st doc_id = false then
    (st, Except.error (McpError.notFound doc_id))
  else
    (st, Except.ok (dictGet st doc_id))

/-- `mcp.server.fastmcp.prompts.base.UserMessage`, reduced to the one field the
module uses. -/
structure UserMessage where
  content : String
deriving DecidableEq, Repr

/-- The part of the `format_document` f-string before the `{doc_id}`
interpolation point. -/
def promptHead : String :=
  "\n    Your goal is to reformat a document to be written with markdown syntax.\n\n    The id of the document you need to reformat is:\n    <document_id>\n    "

/-- The part of the `format_document` f-string after the `{doc_id}`
interpolation point. -/
def promptTail : String :=
  "\n    </document_id>\n\n    Add in headers, bullet points, tables, etc as necessary. Feel free to add in structure.\n    Use the \x27edit_document\x27 tool to edit the document. After the document has been reformatted...\n    "

/-- Prompt `format`: builds the f-string around `doc_id` and wraps it in a
single `UserMessage`. It never consults the registry and has no error path. -/
def format_document (doc_id : String) : List UserMessage :=
  [{ content := promptHead ++ doc_id ++ promptTail }]

/-- `s` contains `sub` as a literal substring. -/
def hasSub (s sub : String) : Prop :=
  ∃ p q, s = p ++ sub ++ q

/-- One client-visible operation of the server. -/
inductive Op where
  | readDoc (doc_id : String)
  | editDoc (doc_id : String) (new_content : String)
  | listIds
  | getContent (doc_id : String)
  | fmt (doc_id : String)

/-- The registry after running one operation: only `edit_doc` can change it;
`list_docs` and `format` do not even take it apart. -/
def applyOp (st : Docs) : Op → Docs
  | Op.readDoc doc_id => (read_document st doc_id).1
  | Op.editDoc doc_id new_content => (edit_document st doc_id new_content).1
  | Op.listIds => st
  | Op.getContent doc_id => (get_doc_content st doc_id).1
  | Op.fmt _ => st

/-- Registry states reachable from the seeded table through the server's
operations. -/
inductive Reachable : Docs → Prop where
  | init : Reachable docs
  | step {st : Docs} (op : Op) : Reachable st → Reachable (applyOp st op)

/-! ### Basic lemmas about the association-list dictionary -/

lemma dictContains_iff_get_isSome (st : Docs) (key : String) :
    dictContains st key = true ↔ (dictGet st key).isSome = true := by
  induction st with
  | nil => simp [dictContains, dictGet]
  | cons hd t ih =>
    obtain ⟨k, v⟩ := hd
    by_cases h : key = k <;> simp [dictContains, dictGet, h, ih]

lemma dictGet_dictSet_self (st : Docs) (key v : String)
    (h : dictContains st key = true) :
    dictGet (dictSet st key v) key = some v := by
  induction st with
  | nil => simp [dictContains] at h
  | cons hd t ih =>
    obtain ⟨k, w⟩ := hd
    by_cases hk : key = k
    · simp [dictSet, dictGet, hk]
    · simp [dictContains, hk] at h
      simp [dictSet, dictGet, hk, ih h]

lemma dictGet_dictSet_ne (st : Docs) (key v other : String)
    (h : other ≠ key) :
    dictGet (dictSet st key v) other = dictGet st other := by
  induction st with
  | nil => simp [dictSet, dictGet, h]
  | cons hd t ih =>
    obtain ⟨k, w⟩ := hd
    by_cases hk : key = k
    · subst hk
      simp [dictSet, dictGet, h]
    · by_cases ho : other = k <;> simp [dictSet, dictGet, hk, ho, ih]

lemma dictKeys_dictSet (st : Docs) (key v : String)
    (h : dictContains st key = true) :
    dictKeys (dictSet st key v) = dictKeys st := by
  induction st with
  | nil => simp [dictContains] at h
  | cons hd t ih =>
    obtain ⟨k, w⟩ := hd
    by_cases hk : key = k
    · simp [dictSet, dictKeys, hk]
    · simp [dictContains, hk] at h
      simp [dictSet, dictKeys, hk, ih h]

lemma dictContains_dictSet_self (st : Docs) (key v : String)
    (h : dictContains st key = true) :
    dictContains (dictSet st key v) key = true := by
  rw [dictContains_iff_get_isSome, dictGet_dictSet_self st key v h]
  rfl

lemma read_document_state (st : Docs) (doc_id : String) :
    (read_document st doc_id).1 = st := by
  unfold read_document
  split <;> rfl

lemma get_doc_content_state (st : Docs) (doc_id : String) :
    (get_doc_content st doc_id).1 = st := by
  unfold get_doc_content
  split <;> rfl

lemma edit_document_state_present (st : Docs) (doc_id X : String)
    (h : dictContains st doc_id = true) :
    (edit_document st doc_id X).1 = dictSet st doc_id X := by
  simp [edit_document, h]

lemma edit_document_keys (st : Docs) (doc_id X : String) :
    dictKeys (edit_document st doc_id X).1 = dictKeys st := by
  cases hb : dictContains st doc_id with
  | false => simp [edit_document, hb]
  | true => simp [edit_document, hb, dictKeys_dictSet st doc_id X hb]

lemma applyOp_keys (st : Docs) (op : Op) :
    dictKeys (applyOp st op) = dictKeys st := by
  cases op <;>
    simp [applyOp, read_document_state, get_doc_content_state, edit_document_keys]

/-! ### The claims -/

/-- C1: for every registry state, every id present in it and every string `X`,
`edit_doc(id, X)` followed by `read_doc(id)` returns exactly `X`. -/
theorem C1_edit_then_read (st : Docs) (doc_id X : String)
    (h : dictContains st doc_id = true) :
    (read_document (edit_document st doc_id X).1 doc_id).2 =
      Except.ok (some X) := by
  rw [edit_document_state_present st doc_id X h]
  have hcon := dictContains_dictSet_self st doc_id X h
  have hget := dictGet_dictSet_self st doc_id X h
  simp [read_document, hcon, hget]

theorem C1_edit_then_read_witness :
    (read_document (edit_document docs "plan.md" "X").1 "plan.md").2 =
      Except.ok (some "X") :=
  C1_edit_then_read docs "plan.md" "X" (by decide)

/-- C2: `read_doc(doc_id)` fails with NotFound exactly when `doc_id` is absent
from the registry, and when present it returns the stored content unchanged. -/
theorem C2_read_notfound_iff (st : Docs) (doc_id : String) :
    ((read_document st doc_id).2 = Except.error (McpError.notFound doc_id) ↔
       dictContains st doc_id = false) ∧
    (∀ c, dictGet st doc_id = some c →
       (read_document st doc_id).2 = Except.ok (some c)) := by
  cases hb : dictContains st doc_id with
  | false =>
    refine ⟨by simp [read_document, hb], fun c hc => ?_⟩
    have hs : (dictGet st doc_id).isSome = true := by simp [hc]
    rw [← dictContains_iff_get_isSome, hb] at hs
    exact absurd hs (by simp)
  | true =>
    exact ⟨by simp [read_document, hb], fun c hc => by simp [read_document, hb, hc]⟩

theorem C2_read_notfound_iff_witness :
    (read_document docs "nope").2 = Except.error (McpError.notFound "nope") ∧
    (read_document docs "plan.md").2 =
      Except.ok (some "The plan outlines the steps for the project\x27s implementation.") :=
  ⟨(C2_read_notfound_iff docs "nope").1.mpr (by decide),
   (C2_read_notfound_iff docs "plan.md").2
     "The plan outlines the steps for the project\x27s implementation." (by decide)⟩

/-- C3: for every id absent from the registry and every string `X`,
`edit_doc(id, X)` fails with NotFound and returns the registry exactly as it
was: every key and every stored content is untouched. -/
theorem C3_edit_absent (st : Docs) (doc_id X : String)
    (h : dictContains st doc_id = false) :
    edit_document st doc_id X = (st, Except.error (McpError.notFound doc_id)) := by
  simp [edit_document, h]

theorem C3_edit_absent_witness :
    edit_document docs "nope" "X" = (docs, Except.error (McpError.notFound "nope")) :=
  C3_edit_absent docs "nope" "X" (by decide)

/-- C4: in the seeded initial state `list_docs()` returns exactly the six
seeded ids in insertion order, and in every state `list_docs` yields a value
(it is a total function with no error path). -/
theorem C4_list_docs_initial :
    list_docs docs = ["deposition.md", "report.pdf", "financials.docx",
      "outlook.pdf", "plan.md", "spec.txt"] ∧
    ∀ st : Docs, ∃ ids : List String, list_docs st = ids :=
  ⟨rfl, fun st => ⟨list_docs st, rfl⟩⟩

/-- C5: in the initial state, `read_doc` returns for each of the six seeded
ids exactly the content it was seeded with in the literal table. -/
theorem C5_seeded_reads :
    (read_document docs "deposition.md").2 =
      Except.ok (some "This deposition covers the testimony of Angela Smith, P.E.") ∧
    (read_document docs "report.pdf").2 =
      Except.ok (some "The report details the state of a 20m condenser tower.") ∧
    (read_document docs "financials.docx").2 =
      Except.ok (some "These financials outline the project\x27s budget and expenditures.") ∧
    (read_document docs "outlook.pdf").2 =
      Except.ok (some "This document presents the projected future performance of the system.") ∧
    (read_document docs "plan.md").2 =
      Except.ok (some "The plan outlines the steps for the project\x27s implementation.") ∧
    (read_document docs "spec.txt").2 =
      Except.ok (some "These specifications define the technical requirements for the equipment.") :=
  ⟨rfl, rfl, rfl, rfl, rfl, rfl⟩

set_option maxRecDepth 8192 in
/-- C6: `format("plan.md")` is a single message whose text contains the
substrings `plan.md` and `edit_document`; and for every id the single returned
message contains that id. -/
theorem C6_format_plan :
    (∃ m : UserMessage, format_document "plan.md" = [m] ∧
       hasSub m.content "plan.md" ∧ hasSub m.content "edit_document") ∧
    ∀ doc_id : String, ∃ m : UserMessage,
      format_document doc_id = [m] ∧ hasSub m.content doc_id := by
  constructor
  · refine ⟨⟨promptHead ++ "plan.md" ++ promptTail⟩, rfl,
      ⟨promptHead, promptTail, rfl⟩, ?_⟩
    exact ⟨promptHead ++ "plan.md" ++ "\n    </document_id>\n\n    Add in headers, bullet points, tables, etc as necessary. Feel free to add in structure.\n    Use the \x27",
      "\x27 tool to edit the document. After the document has been reformatted...\n    ",
      by decide⟩
  · intro doc_id
    exact ⟨⟨promptHead ++ doc_id ++ promptTail⟩, rfl, promptHead, promptTail, rfl⟩

/-- C7: `format(doc_id)` succeeds for every string, consulting the registry
nowhere (it takes no registry argument and has no error path), and the single
message it returns contains `doc_id`; in particular it succeeds on the absent
id `nope`. -/
theorem C7_format_total :
    (∀ doc_id : String, ∃ m : UserMessage,
       format_document doc_id = [m] ∧ hasSub m.content doc_id) ∧
    (∃ m : UserMessage, format_document "nope" = [m] ∧ hasSub m.content "nope") :=
  ⟨fun doc_id => ⟨⟨promptHead ++ doc_id ++ promptTail⟩, rfl,
     promptHead, promptTail, rfl⟩,
   ⟨⟨promptHead ++ "nope" ++ promptTail⟩, rfl, promptHead, promptTail, rfl⟩⟩

/-- C8: no operation changes the key set of the registry, so every state
reachable from the seeded initial state has exactly the six seeded keys in
their seeded order. -/
theorem C8_keys_invariant :
    (∀ (st : Docs) (op : Op), dictKeys (applyOp st op) = dictKeys st) ∧
    ∀ st : Docs, Reachable st →
      dictKeys st = ["deposition.md", "report.pdf", "financials.docx",
        "outlook.pdf", "plan.md", "spec.txt"] := by
  refine ⟨applyOp_keys, fun st h => ?_⟩
  induction h with
  | init => rfl
  | step op _ ih => rw [applyOp_keys]; exact ih

theorem C8_keys_invariant_witness :
    dictKeys (applyOp docs (Op.editDoc "plan.md" "new")) = dictKeys docs ∧
    dictKeys docs = ["deposition.md", "report.pdf", "financials.docx",
      "outlook.pdf", "plan.md", "spec.txt"] :=
  ⟨C8_keys_invariant.1 docs (Op.editDoc "plan.md" "new"),
   C8_keys_invariant.2 docs Reachable.init⟩

/-- C9: the tool `read_doc` and the templated resource `docs://documents/{doc_id}`
are the same function of the registry state and the id: same NotFound failure
on absent ids, same content on present ids. -/
theorem C9_read_eq_resource (st : Docs) (doc_id : String) :
    read_document st doc_id = get_doc_content st doc_id := rfl

/-- C10: editing a present id touches no other entry: the content stored under
every other key is exactly what it was, and `read_doc` never changes the
registry at all. -/
theorem C10_edit_frame (st : Docs) (doc_id X : String)
    (h : dictContains st doc_id = true) :
    (∀ k, k ≠ doc_id → dictGet (edit_document st doc_id X).1 k = dictGet st k) ∧
    ∀ (st2 : Docs) (id2 : String), (read_document st2 id2).1 = st2 := by
  refine ⟨fun k hk => ?_, fun st2 id2 => read_document_state st2 id2⟩
  rw [edit_document_state_present st doc_id X h,
    dictGet_dictSet_ne st doc_id X k hk]

theorem C10_edit_frame_witness :
    dictGet (edit_document docs "plan.md" "new").1 "spec.txt" =
      dictGet docs "spec.txt" ∧
    (read_document docs "nope").1 = docs :=
  ⟨(C10_edit_frame docs "plan.md" "new" (by decide)).1 "spec.txt" (by decide),
   (C10_edit_frame docs "plan.md" "new" (by decide)).2 docs "nope"⟩
